import Mathlib

/-!
Verification development for a small expense-tracking UI.

The embedded code comes from three components:
  - an expense card (data shape and category enumeration),
  - an expense list (category filtering and total aggregation),
  - an expense form (validation, field-scoped error clearing, submission).

JavaScript numbers reaching the logic are modelled as `Option ℚ`, where
`none` stands for NaN (the result of `parseFloat` on unparseable text);
JavaScript strings are Lean strings, with falsiness being emptiness.
-/

namespace ExpenseTracker

/-- Whitespace recognised by the model of the JavaScript `trim` and
`parseFloat` leading-whitespace skip. -/
def isJsSpace (c : Char) : Bool :=
  c == ' ' || c == '\t' || c == '\n' || c == '\r'

/-- Model of JavaScript `String.prototype.trim`: drop whitespace from both
ends of the character list. -/
def jsTrim (s : String) : String :=
  ⟨((s.data.dropWhile isJsSpace).reverse.dropWhile isJsSpace).reverse⟩

/-- Value of a list of decimal digit characters read left to right. -/
def digitsToNat (ds : List Char) : Nat :=
  ds.foldl (fun n c => 10 * n + (c.toNat - 48)) 0

/-- Model of JavaScript `parseFloat`: skip leading whitespace, read an
optional sign, then the longest prefix shaped like `digits[.digits][e[sign]digits]`.
Returns `none` for NaN (no digits found at all). The numeric value is kept
exact as a rational. -/
def jsParseFloat (s : String) : Option ℚ :=
  let cs := s.data.dropWhile isJsSpace
  let signed : Bool × List Char :=
    match cs with
    | '-' :: rest => (true, rest)
    | '+' :: rest => (false, rest)
    | _ => (false, cs)
  let neg := signed.1
  let p1 := signed.2.span Char.isDigit
  let intDigits := p1.1
  let afterInt := p1.2
  let p2 : List Char × List Char :=
    match afterInt with
    | '.' :: rest => rest.span Char.isDigit
    | _ => ([], afterInt)
  let fracDigits := p2.1
  let afterFrac := if afterInt.head? = some '.' then p2.2 else afterInt
  if intDigits.isEmpty && fracDigits.isEmpty then
    none
  else
    let mant : ℚ :=
      (digitsToNat intDigits : ℚ) + (digitsToNat fracDigits : ℚ) / ((10 : ℚ) ^ fracDigits.length)
    let exp : ℤ :=
      match afterFrac with
      | 'e' :: rest | 'E' :: rest =>
        match rest with
        | '-' :: rest2 =>
          let ed := (rest2.span Char.isDigit).1
          if ed.isEmpty then 0 else -(digitsToNat ed : ℤ)
        | '+' :: rest2 =>
          let ed := (rest2.span Char.isDigit).1
          if ed.isEmpty then 0 else (digitsToNat ed : ℤ)
        | _ =>
          let ed := (rest.span Char.isDigit).1
          if ed.isEmpty then 0 else (digitsToNat ed : ℤ)
      | _ => 0
    let v := mant * (10 : ℚ) ^ exp
    some (if neg then -v else v)

/-- JavaScript comparison `x <= 0` on a possibly-NaN number: any comparison
with NaN is false. -/
def jsLeZero : Option ℚ → Bool
  | none => false
  | some a => a ≤ 0

/-- The fixed category enumeration from the card component:
`type ExpenseCategory = 'Food' | 'Transportation' | 'Entertainment' | 'Shopping' | 'Other'`. -/
def expenseCategories : List String :=
  ["Food", "Transportation", "Entertainment", "Shopping", "Other"]

/-- Options offered by the expense form category selector (`ExpenseForm`). -/
def formCategoryOptions : List String :=
  ["Food", "Transportation", "Entertainment", "Shopping", "Other"]

/-- Options offered by the expense list filter dropdown (`ExpenseList`):
All Categories, Food, Transportation, Entertainment, Other. -/
def filterCategoryOptions : List String :=
  ["All", "Food", "Transportation", "Entertainment", "Other"]

/-- The draft state of the form (`ExpenseFormData`): amount held as raw
text, category held as the runtime string value of the select. -/
structure ExpenseFormData where
  description : String
  amount : String
  category : String
  date : String
deriving DecidableEq, Repr

/-- The field error map (`FormErrors`): each field optionally carries a
message; an absent message means the field has no error. -/
structure FormErrors where
  description : Option String := none
  amount : Option String := none
  category : Option String := none
  date : Option String := none
deriving DecidableEq, Repr

/-- The empty error map (`{}` in the source). -/
def noErrors : FormErrors := {}

/-- Number of keys present in the error map, matching
`Object.keys(validationErrors).length` on an object whose keys are set only
when a rule fails. -/
def FormErrors.numEntries (e : FormErrors) : Nat :=
  (if e.description.isSome then 1 else 0) + (if e.amount.isSome then 1 else 0) +
    (if e.category.isSome then 1 else 0) + (if e.date.isSome then 1 else 0)

/-- The form field names used by the generic change handler. -/
inductive Field
  | description
  | amount
  | category
  | date
deriving DecidableEq, Repr

/-- All four field names. -/
def allFields : List Field :=
  [Field.description, Field.amount, Field.category, Field.date]

/-- Look up one field entry of the error map. -/
def FormErrors.get (e : FormErrors) : Field → Option String
  | Field.description => e.description
  | Field.amount => e.amount
  | Field.category => e.category
  | Field.date => e.date

/-- Overwrite one field entry of the error map (the computed-key update
`\x7b ...prev, [name]: v \x7d`). -/
def FormErrors.set (e : FormErrors) : Field → Option String → FormErrors
  | Field.description, v => { e with description := v }
  | Field.amount, v => { e with amount := v }
  | Field.category, v => { e with category := v }
  | Field.date, v => { e with date := v }

/-- Overwrite one field of the draft (the computed-key update in
`setFormData`). -/
def ExpenseFormData.setField (d : ExpenseFormData) : Field → String → ExpenseFormData
  | Field.description, v => { d with description := v }
  | Field.amount, v => { d with amount := v }
  | Field.category, v => { d with category := v }
  | Field.date, v => { d with date := v }

/-- JavaScript truthiness of an optional string entry: present and
non-empty. -/
def isTruthy : Option String → Bool
  | none => false
  | some s => s ≠ ""

/-- Result record of `validateExpenseForm`. -/
structure ValidationResult where
  isValid : Bool
  errors : FormErrors
deriving DecidableEq, Repr

/-- Embedding of `validateExpenseForm`: four independent checks, each
adding one message to a fresh error object; `isValid` is whether that
object ended up with zero keys. -/
def validateExpenseForm (data : ExpenseFormData) : ValidationResult :=
  let dErr : Option String :=
    if jsTrim data.description == "" then some "Description is required" else none
  let amount := jsParseFloat data.amount
  let aErr : Option String :=
    if amount.isNone || jsLeZero amount then some "Amount must be a positive number" else none
  let cErr : Option String :=
    if data.category == "" then some "Category is required" else none
  let tErr : Option String :=
    if data.date == "" then some "Date is required" else none
  let errs : FormErrors :=
    { description := dErr, amount := aErr, category := cErr, date := tErr }
  { isValid := errs.numEntries == 0, errors := errs }

/-- Rule violation per field, read off the guard of each check in
`validateExpenseForm`. -/
def violates (d : ExpenseFormData) : Field → Bool
  | Field.description => jsTrim d.description == ""
  | Field.amount => (jsParseFloat d.amount).isNone || jsLeZero (jsParseFloat d.amount)
  | Field.category => d.category == ""
  | Field.date => d.date == ""

/-- The normalized payload passed to the submit callback: trimmed
description, parsed amount, category and date as held in the draft. -/
structure ExpensePayload where
  description : String
  amount : Option ℚ
  category : String
  date : String
deriving DecidableEq, Repr

/-- The payload `onSubmit` receives for a given draft. -/
def normalizedPayload (d : ExpenseFormData) : ExpensePayload :=
  { description := jsTrim d.description
    amount := jsParseFloat d.amount
    category := d.category
    date := d.date }

/-- Component state of the form plus the log of submit-callback
invocations (one list entry per call of `onSubmit`). -/
structure FormState where
  formData : ExpenseFormData
  errors : FormErrors
  submitted : List ExpensePayload
deriving DecidableEq, Repr

/-- The initial and post-reset draft: empty description and amount,
category Food, date defaulted to today. -/
def initialFormData (today : String) : ExpenseFormData :=
  { description := "", amount := "", category := "Food", date := today }

/-- Embedding of `handleInputChange` for one field edit: write the value
into the draft, and clear the error entry of that field when the entry is
currently truthy. -/
def handleInputChange (f : Field) (v : String) (s : FormState) : FormState :=
  { s with
    formData := s.formData.setField f v
    errors := if isTruthy (s.errors.get f) then s.errors.set f none else s.errors }

/-- Embedding of `handleSubmit`: validate; on failure store the error map
and stop; on success clear errors, run the legacy alert-style guards, then
call the submit callback with the normalized payload and reset the draft.
The `alert` calls have no state effect, so the alert branches return the
state unchanged apart from the already-cleared error map. -/
def handleSubmit (today : String) (s : FormState) : FormState :=
  let validation := validateExpenseForm s.formData
  if !validation.isValid then
    { s with errors := validation.errors }
  else
    let s1 : FormState := { s with errors := {} }
    if jsTrim s1.formData.description == "" || s1.formData.amount == "" || s1.formData.date == "" then
      s1
    else
      let amount := jsParseFloat s1.formData.amount
      if jsLeZero amount then
        s1
      else
        { formData := initialFormData today
          errors := s1.errors
          submitted := s1.submitted ++
            [{ description := jsTrim s1.formData.description
               amount := amount
               category := s1.formData.category
               date := s1.formData.date }] }

/-- One expense entry as supplied to the expense list. -/
structure Expense where
  id : Int
  description : String
  amount : ℚ
  category : String
  date : String
deriving DecidableEq, Repr

/-- Embedding of `filteredExpenses`: the full list for the All selection,
otherwise the subset whose category equals the selection. -/
def filteredExpenses (filterCategory : String) (expenses : List Expense) : List Expense :=
  if filterCategory == "All" then expenses
  else expenses.filter (fun e => e.category == filterCategory)

/-- Embedding of `filteredTotal`: reduce over the filtered list summing
the amounts, starting from zero. -/
def filteredTotal (filterCategory : String) (expenses : List Expense) : ℚ :=
  (filteredExpenses filterCategory expenses).foldl (fun sum e => sum + e.amount) 0

/-- Two-digit fractional component used by the `toFixed(2)` model. -/
def fracString (n : Nat) : String :=
  if n < 10 then "0" ++ toString n else toString n

/-- Model of `Number.prototype.toFixed(2)` on exact rationals: round to
cents and print with exactly two digits after the decimal point. -/
def toFixed2 (q : ℚ) : String :=
  let cents : ℤ := round (q * 100)
  let sign := if cents < 0 then "-" else ""
  let n := cents.natAbs
  sign ++ toString (n / 100) ++ "." ++ fracString (n % 100)

/-- What the card area of the expense list renders: either the empty-state
message or one card per visible expense. -/
inductive CardArea
  | emptyMessage (msg : String)
  | cards (items : List Expense)
deriving DecidableEq, Repr

/-- Embedding of the card-area conditional: the placeholder paragraph when
the filtered list is empty, otherwise the mapped cards. -/
def renderCardArea (filterCategory : String) (expenses : List Expense) : CardArea :=
  let fe := filteredExpenses filterCategory expenses
  if fe.length == 0 then
    CardArea.emptyMessage "No expenses found. Add some expenses to get started!"
  else
    CardArea.cards fe

/-- The summary line above the cards: total to two decimals and the count
of visible expenses. -/
def totalLine (filterCategory : String) (expenses : List Expense) : String :=
  "Total: $" ++ toFixed2 (filteredTotal filterCategory expenses) ++ " (" ++
    toString (filteredExpenses filterCategory expenses).length ++ " expenses)"

/-! ### Helper lemmas -/

theorem jsParseFloat_empty : jsParseFloat "" = none := rfl

theorem validate_errors (d : ExpenseFormData) :
    (validateExpenseForm d).errors =
      { description :=
          if violates d Field.description then some "Description is required" else none
        amount :=
          if violates d Field.amount then some "Amount must be a positive number" else none
        category :=
          if violates d Field.category then some "Category is required" else none
        date :=
          if violates d Field.date then some "Date is required" else none } := rfl

theorem validate_isValid (d : ExpenseFormData) :
    (validateExpenseForm d).isValid = ((validateExpenseForm d).errors.numEntries == 0) := rfl

theorem forall_field_iff (p : Field → Prop) :
    (∀ f, p f) ↔
      p Field.description ∧ p Field.amount ∧ p Field.category ∧ p Field.date := by
  constructor
  · intro h
    exact ⟨h _, h _, h _, h _⟩
  · rintro ⟨h1, h2, h3, h4⟩ f
    cases f <;> assumption

theorem isValid_iff (d : ExpenseFormData) :
    (validateExpenseForm d).isValid = true ↔ ∀ f, violates d f = false := by
  rw [validate_isValid, validate_errors, forall_field_iff]
  cases h1 : violates d Field.description <;> cases h2 : violates d Field.amount <;>
    cases h3 : violates d Field.category <;> cases h4 : violates d Field.date <;>
    simp [FormErrors.numEntries]

theorem amount_ne_empty (d : ExpenseFormData) (h : violates d Field.amount = false) :
    d.amount ≠ "" := by
  intro he
  have hN : (jsParseFloat d.amount).isNone = false := by
    have := h
    simp only [violates, Bool.or_eq_false_iff] at this
    exact this.1
  rw [he, jsParseFloat_empty] at hN
  simp at hN

theorem handleSubmit_of_valid (today : String) (s : FormState)
    (h : (validateExpenseForm s.formData).isValid = true) :
    handleSubmit today s =
      { formData := initialFormData today, errors := noErrors,
        submitted := s.submitted ++ [normalizedPayload s.formData] } := by
  have h4 := (isValid_iff s.formData).mp h
  have hd := h4 Field.description
  have ha := h4 Field.amount
  have hdt := h4 Field.date
  simp only [violates, Bool.or_eq_false_iff] at hd ha hdt
  have hAmtNe : s.formData.amount ≠ "" := amount_ne_empty s.formData (h4 Field.amount)
  simp [handleSubmit, h, hd, ha.1, ha.2, hdt, hAmtNe, normalizedPayload, noErrors]

theorem handleSubmit_of_invalid (today : String) (s : FormState)
    (h : (validateExpenseForm s.formData).isValid = false) :
    handleSubmit today s = { s with errors := (validateExpenseForm s.formData).errors } := by
  simp [handleSubmit, h]

theorem foldl_add_amount (l : List Expense) (a : ℚ) :
    l.foldl (fun sum e => sum + e.amount) a = a + (l.map (fun e => e.amount)).sum := by
  induction l generalizing a with
  | nil => simp
  | cons x xs ih => simp [ih, add_assoc]

theorem fracString_length : ∀ n, n < 100 → (fracString n).length = 2 := by decide

theorem category_mem_ne_empty (c : String) (hc : c ∈ expenseCategories) : c ≠ "" := by
  simp only [expenseCategories, List.mem_cons, List.not_mem_nil, or_false] at hc
  rcases hc with h | h | h | h | h <;> simp [h]

/-! ### Claim theorems -/

/-- C1: a draft with non-empty trimmed description, an amount text parsing
to a number strictly greater than zero, a category from the enumeration
and a non-empty date validates with an empty error map, and submitting it
invokes the submit callback exactly once with the normalized payload of
trimmed description, parsed amount, and unchanged category and date. -/
theorem C1_valid_draft_normalized_submit (today : String) (s : FormState) (a : ℚ)
    (hd : jsTrim s.formData.description ≠ "")
    (ha : jsParseFloat s.formData.amount = some a)
    (hpos : 0 < a)
    (hc : s.formData.category ∈ expenseCategories)
    (hdt : s.formData.date ≠ "") :
    (validateExpenseForm s.formData).isValid = true
    ∧ (validateExpenseForm s.formData).errors = noErrors
    ∧ handleSubmit today s =
        { formData := initialFormData today, errors := noErrors,
          submitted := s.submitted ++
            [{ description := jsTrim s.formData.description, amount := some a,
               category := s.formData.category, date := s.formData.date }] } := by
  have hcne := category_mem_ne_empty _ hc
  have hviol : ∀ f, violates s.formData f = false := by
    intro f
    cases f <;> simp [violates, hd, ha, hcne, hdt, jsLeZero, not_le.mpr hpos]
  have hvalid := (isValid_iff s.formData).mpr hviol
  refine ⟨hvalid, ?_, ?_⟩
  · rw [validate_errors]
    simp [hviol Field.description, hviol Field.amount, hviol Field.category,
      hviol Field.date, noErrors]
  · rw [handleSubmit_of_valid today s hvalid]
    simp [normalizedPayload, ha]

/-- C1 witness: a concrete valid draft validates and submits its
normalized payload. -/
theorem C1_witness :
    handleSubmit "2024-02-01" ⟨⟨" Coffee ", "3.50", "Food", "2024-01-05"⟩, noErrors, []⟩
      = ⟨initialFormData "2024-02-01", noErrors,
         [⟨"Coffee", some (7/2), "Food", "2024-01-05"⟩]⟩ :=
  (C1_valid_draft_normalized_submit "2024-02-01"
      ⟨⟨" Coffee ", "3.50", "Food", "2024-01-05"⟩, noErrors, []⟩ (7/2)
      (by decide) (by with_unfolding_all rfl)
      (by norm_num) (by decide) (by decide)).2.2

/-- C2: the error map produced by validation has an entry for exactly the
violated rules: each field entry is present precisely when its rule is
violated, and the number of entries equals the number of violated rules,
since the four checks run independently without short-circuiting. -/
theorem C2_error_map_exactly_violated_rules (d : ExpenseFormData) :
    (∀ f : Field, ((validateExpenseForm d).errors.get f).isSome = violates d f)
    ∧ (validateExpenseForm d).errors.numEntries = allFields.countP (violates d) := by
  rw [validate_errors]
  constructor
  · intro f
    cases f <;> simp only [FormErrors.get] <;> cases h : violates d Field.description <;>
      cases h2 : violates d Field.amount <;> cases h3 : violates d Field.category <;>
      cases h4 : violates d Field.date <;> simp_all
  · cases h1 : violates d Field.description <;> cases h2 : violates d Field.amount <;>
      cases h3 : violates d Field.category <;> cases h4 : violates d Field.date <;>
      simp [FormErrors.numEntries, allFields, List.countP_cons, h1, h2, h3, h4]

/-- C3: when at least one validation rule fails, the submit attempt stores
the full error map, does not invoke the submit callback, and leaves the
draft fields unchanged. -/
theorem C3_rejected_submit_stores_errors (today : String) (s : FormState) (f : Field)
    (hf : violates s.formData f = true) :
    handleSubmit today s = { s with errors := (validateExpenseForm s.formData).errors } := by
  have hinv : (validateExpenseForm s.formData).isValid = false := by
    rcases h : (validateExpenseForm s.formData).isValid with _ | _
    · rfl
    · have := (isValid_iff s.formData).mp h f
      rw [hf] at this
      exact absurd this (by simp)
  exact handleSubmit_of_invalid today s hinv

/-- C3 witness: a draft with a whitespace-only description is rejected
with exactly the description error, no callback invocation, and the draft
untouched. -/
theorem C3_witness :
    handleSubmit "2024-02-01" ⟨⟨"  ", "10", "Food", "2024-01-05"⟩, noErrors, []⟩
      = ⟨⟨"  ", "10", "Food", "2024-01-05"⟩,
         ⟨some "Description is required", none, none, none⟩, []⟩ := by
  rw [C3_rejected_submit_stores_errors "2024-02-01"
    ⟨⟨"  ", "10", "Food", "2024-01-05"⟩, noErrors, []⟩ Field.description
    (by with_unfolding_all rfl)]
  with_unfolding_all rfl

/-- C4: with selection All the visible list is the input collection in its
supplied order; otherwise it is exactly the entries whose category equals
the selection, in their original relative order (a sublist of the input);
in both cases its length is the number of matching entries. The embedding
is a pure derivation, so the input collection is never mutated. -/
theorem C4_filtering_preserves_order_and_count (sel : String) (es : List Expense) :
    filteredExpenses "All" es = es
    ∧ (filteredExpenses sel es).Sublist es
    ∧ (∀ e, e ∈ filteredExpenses sel es ↔ e ∈ es ∧ (sel = "All" ∨ e.category = sel))
    ∧ (filteredExpenses sel es).length
        = es.countP (fun e => sel == "All" || e.category == sel) := by
  refine ⟨by simp [filteredExpenses], ?_, ?_, ?_⟩
  · by_cases h : sel = "All" <;> simp [filteredExpenses, h, List.filter_sublist]
  · intro e
    by_cases h : sel = "All" <;> simp [filteredExpenses, h, List.mem_filter]
  · by_cases h : sel = "All"
    · simp [filteredExpenses, h, List.countP_true]
    · have hb : (sel == "All") = false := beq_eq_false_iff_ne.mpr h
      simp [filteredExpenses, hb, List.countP_eq_length_filter]

/-- C5: the displayed total is the arithmetic sum of the amounts of the
visible subset, rendered with exactly two digits after the decimal point;
for an empty visible subset the total is zero, rendered 0.00, the count is
zero, and the card area renders the placeholder message. -/
theorem C5_total_is_sum_two_decimals (sel : String) (es : List Expense) :
    filteredTotal sel es = ((filteredExpenses sel es).map (fun e => e.amount)).sum
    ∧ (∃ w f, toFixed2 (filteredTotal sel es) = w ++ "." ++ f ∧ f.length = 2)
    ∧ (filteredExpenses sel es = [] →
        filteredTotal sel es = 0
        ∧ toFixed2 (filteredTotal sel es) = "0.00"
        ∧ (filteredExpenses sel es).length = 0
        ∧ renderCardArea sel es
            = CardArea.emptyMessage "No expenses found. Add some expenses to get started!") := by
  have hsum : filteredTotal sel es = ((filteredExpenses sel es).map (fun e => e.amount)).sum := by
    rw [filteredTotal, foldl_add_amount, zero_add]
  refine ⟨hsum, ?_, ?_⟩
  · refine ⟨(if round (filteredTotal sel es * 100) < 0 then "-" else "")
        ++ toString ((round (filteredTotal sel es * 100)).natAbs / 100),
      fracString ((round (filteredTotal sel es * 100)).natAbs % 100), ?_, ?_⟩
    · rw [toFixed2]
    · exact fracString_length _ (Nat.mod_lt _ (by norm_num))
  · intro hE
    have hT : filteredTotal sel es = 0 := by
      rw [filteredTotal, hE]
      rfl
    refine ⟨hT, ?_, by rw [hE]; rfl, ?_⟩
    · rw [hT]
      with_unfolding_all rfl
    · rw [renderCardArea]
      simp [hE]

/-- C5 witness: the empty collection under the Food selection shows a zero
total, zero count, and the placeholder message. -/
theorem C5_witness :
    filteredTotal "Food" ([] : List Expense) = 0
    ∧ toFixed2 (filteredTotal "Food" ([] : List Expense)) = "0.00"
    ∧ (filteredExpenses "Food" ([] : List Expense)).length = 0
    ∧ renderCardArea "Food" ([] : List Expense)
        = CardArea.emptyMessage "No expenses found. Add some expenses to get started!" :=
  (C5_total_is_sum_two_decimals "Food" []).2.2 (by decide)

/-- C6: the category enumeration and the form selector both contain
Shopping, but the list filter dropdown omits it, so the filter control
does not offer every enumeration member; the remaining four members and
All are offered by the filter, and the form selector offers the
enumeration verbatim. -/
theorem C6_filter_dropdown_omits_shopping :
    "Shopping" ∈ expenseCategories
    ∧ "Shopping" ∈ formCategoryOptions
    ∧ "Shopping" ∉ filterCategoryOptions
    ∧ formCategoryOptions = expenseCategories
    ∧ filterCategoryOptions = "All" :: expenseCategories.filter (fun c => c ≠ "Shopping") := by
  decide

/-- C7: when the structured validation pass returns a valid result, every
guard of the legacy alert-style block evaluates to false, so the alert
path is unreachable and submission reaches the callback with the
normalized payload. -/
theorem C7_legacy_alert_block_dead (today : String) (s : FormState)
    (h : (validateExpenseForm s.formData).isValid = true) :
    (jsTrim s.formData.description == "" || s.formData.amount == ""
        || s.formData.date == "") = false
    ∧ jsLeZero (jsParseFloat s.formData.amount) = false
    ∧ (handleSubmit today s).submitted = s.submitted ++ [normalizedPayload s.formData] := by
  have h4 := (isValid_iff s.formData).mp h
  have hd := h4 Field.description
  have ha := h4 Field.amount
  have hdt := h4 Field.date
  simp only [violates, Bool.or_eq_false_iff] at hd ha hdt
  have hAmtNe : s.formData.amount ≠ "" := amount_ne_empty s.formData (h4 Field.amount)
  refine ⟨?_, ha.2, ?_⟩
  · simp [hd, hdt, hAmtNe]
  · rw [handleSubmit_of_valid today s h]

/-- C7 witness: at a concrete valid draft the legacy guards are false and
the callback log grows by the normalized payload. -/
theorem C7_witness :
    (jsTrim "Lunch" == "" || ("12" : String) == "" || ("2024-03-01" : String) == "") = false
    ∧ jsLeZero (jsParseFloat "12") = false
    ∧ (handleSubmit "2024-03-02"
        ⟨⟨"Lunch", "12", "Other", "2024-03-01"⟩, noErrors, []⟩).submitted
        = [] ++ [normalizedPayload ⟨"Lunch", "12", "Other", "2024-03-01"⟩] :=
  C7_legacy_alert_block_dead "2024-03-02"
    ⟨⟨"Lunch", "12", "Other", "2024-03-01"⟩, noErrors, []⟩ (by with_unfolding_all rfl)

/-- C8: one field edit clears exactly the error entry of the edited field
when that entry is currently truthy; every other entry keeps its value,
and when the edited field has no current error every entry, the edited one
included, keeps its value. -/
theorem C8_error_clearing_is_field_scoped (f : Field) (v : String) (s : FormState)
    (g : Field) :
    (handleInputChange f v s).errors.get g
      = if g = f ∧ isTruthy (s.errors.get f) = true then none else s.errors.get g := by
  rw [handleInputChange]
  cases f <;> cases g <;>
    simp only [FormErrors.get, FormErrors.set] <;>
    split <;> simp_all

/-- C9: a successful submission clears the error map and resets the draft
to its default state, and two valid drafts submitted in sequence produce
two callback invocations in order, with the draft at the default state in
between. -/
theorem C9_reset_after_submit_and_sequencing (today : String)
    (d1 d2 : ExpenseFormData) (e0 : FormErrors) (l0 : List ExpensePayload)
    (h1 : (validateExpenseForm d1).isValid = true)
    (h2 : (validateExpenseForm d2).isValid = true) :
    handleSubmit today ⟨d1, e0, l0⟩
      = ⟨initialFormData today, noErrors, l0 ++ [normalizedPayload d1]⟩
    ∧ (handleSubmit today ⟨d2, noErrors, l0 ++ [normalizedPayload d1]⟩).submitted
        = l0 ++ [normalizedPayload d1, normalizedPayload d2] := by
  constructor
  · exact handleSubmit_of_valid today ⟨d1, e0, l0⟩ h1
  · rw [handleSubmit_of_valid today ⟨d2, noErrors, l0 ++ [normalizedPayload d1]⟩ h2]
    simp

/-- C9 witness: two concrete valid drafts submitted in sequence log both
normalized payloads, with the draft reset between the submissions. -/
theorem C9_witness :
    handleSubmit "2024-04-01" ⟨⟨"Tea", "2", "Food", "2024-03-30"⟩, noErrors, []⟩
      = ⟨initialFormData "2024-04-01", noErrors,
         [normalizedPayload ⟨"Tea", "2", "Food", "2024-03-30"⟩]⟩
    ∧ (handleSubmit "2024-04-01"
        ⟨⟨"Bus", "5", "Transportation", "2024-03-31"⟩, noErrors,
          [] ++ [normalizedPayload ⟨"Tea", "2", "Food", "2024-03-30"⟩]⟩).submitted
        = [] ++ [normalizedPayload ⟨"Tea", "2", "Food", "2024-03-30"⟩,
            normalizedPayload ⟨"Bus", "5", "Transportation", "2024-03-31"⟩] :=
  C9_reset_after_submit_and_sequencing "2024-04-01"
    ⟨"Tea", "2", "Food", "2024-03-30"⟩ ⟨"Bus", "5", "Transportation", "2024-03-31"⟩
    noErrors [] (by with_unfolding_all rfl) (by with_unfolding_all rfl)

/-- C10: the two results of the validation pass agree: the valid flag
holds exactly when the error map is empty, and exactly when no rule is
violated. -/
theorem C10_isValid_iff_no_errors (d : ExpenseFormData) :
    ((validateExpenseForm d).isValid = true ↔ (validateExpenseForm d).errors = noErrors)
    ∧ ((validateExpenseForm d).isValid = true ↔ ∀ f : Field, violates d f = false) := by
  refine ⟨?_, isValid_iff d⟩
  rw [isValid_iff d, forall_field_iff, validate_errors]
  constructor
  · rintro ⟨hd, ha, hc, ht⟩
    simp [hd, ha, hc, ht, noErrors]
  · intro h
    have h1 := congrArg FormErrors.description h
    have h2 := congrArg FormErrors.amount h
    have h3 := congrArg FormErrors.category h
    have h4 := congrArg FormErrors.date h
    simp only [noErrors] at h1 h2 h3 h4
    refine ⟨?_, ?_, ?_, ?_⟩
    · cases hx : violates d Field.description <;> simp_all
    · cases hx : violates d Field.amount <;> simp_all
    · cases hx : violates d Field.category <;> simp_all
    · cases hx : violates d Field.date <;> simp_all

end ExpenseTracker
